import Mathlib

/-!
Verification development for the Conversation Session Orchestrator of the
arcadia chat server (`apiserver/pkg/chat/chat.go`, here `src/unnamed/part_000`).

The Go source under verification is `ChatServer`: its lazy storage selection
(`Storage`), the chat turn orchestration (`AppRun`) and the listing/retrieval
operations (`ListConversations`, `DeleteConversation`, `ListMessages`,
`GetMessageReferences`).  The `storage` package (conversations, messages,
search options, the in-memory backend) is not part of the provided sources;
it is modelled from the specification where needed and each such definition
says so in its doc comment.  Collaborator calls whose bodies are outside the
sources (dynamic client lookup, application resolution, the application
runner, the datasource/pool constructors) are supplied by an environment
record, so that every control path of the Go functions is represented.
-/

namespace Arcadia

/-- One retrieval citation (`retriever.Reference`).  Its fields are irrelevant
to the orchestrator, which only stores and returns them; an opaque payload
stands for the full record. -/
structure Reference where
  payload : String
deriving DecidableEq, Repr

/-- Modelled from the spec: `storage.Message` (storage package not under the
provided sources).  Query text, answer text, and the reference list; the Go
`References []retriever.Reference` slice distinguishes nil from empty, so it
is an `Option`. -/
structure Message where
  id : String
  query : String
  answer : String
  references : Option (List Reference)
deriving DecidableEq, Repr

/-- Modelled from the spec: `storage.Conversation` — identity, owning
application (name and namespace), timestamps, the ordered message sequence,
the owning user (empty string = anonymous) and the debug flag. -/
structure Conversation where
  id : String
  appName : String
  appNamespace : String
  startedAt : Nat
  updatedAt : Nat
  messages : List Message
  user : String
  debug : Bool
deriving DecidableEq, Repr

/-- Modelled from the spec: `storage.SearchOption` — a composable scoping
predicate; multiple options combine with logical AND. -/
inductive SearchOption where
  | withAppName (name : String)
  | withAppNamespace (ns : String)
  | withUser (user : String)
  | withDebug (debug : Bool)
  | withConversationID (id : String)
deriving DecidableEq, Repr

/-- Modelled from the spec: the predicate denoted by one search option. -/
def optionMatches (c : Conversation) : SearchOption → Bool
  | .withAppName name => c.appName == name
  | .withAppNamespace ns => c.appNamespace == ns
  | .withUser user => c.user == user
  | .withDebug debug => c.debug == debug
  | .withConversationID id => c.id == id

/-- Modelled from the spec: search options combine with logical AND. -/
def matchesAll (opts : List SearchOption) (c : Conversation) : Bool :=
  opts.all (optionMatches c)

/-- Modelled from the spec: the in-memory backend's state, the conversations
it holds (the values of its map, keyed by conversation ID). -/
abbrev Store := List Conversation

/-- Modelled from the spec: `FindExistingConversation(conversationID,
options...)` returns the conversation matching the ID and all supplied
scoping predicates, or a not-found error. -/
def findExistingConversation (s : Store) (conversationID : String)
    (opts : List SearchOption) : Except String Conversation :=
  match s.find? (fun c => c.id == conversationID && matchesAll opts c) with
  | some c => .ok c
  | none => .error "conversation is not found"

/-- Modelled from the spec: `UpdateConversation` is an idempotent upsert by
conversation ID, atomically replacing the stored record. -/
def upsert (s : Store) (c : Conversation) : Store :=
  if s.any (fun x => x.id == c.id) then
    s.map (fun x => if x.id == c.id then c else x)
  else
    s ++ [c]

/-- Modelled from the spec: `FindExistingMessage(conversationID, messageID,
options...)` — the message with that ID inside the scoped conversation, or a
not-found error. -/
def findExistingMessage (s : Store) (conversationID messageID : String)
    (opts : List SearchOption) : Except String Message :=
  match findExistingConversation s conversationID opts with
  | .error e => .error e
  | .ok c =>
    match c.messages.find? (fun m => m.id == messageID) with
    | some m => .ok m
    | none => .error "message is not found"

/-- Modelled from the spec: `Delete(options...)` removes every conversation
matching the predicates; matching zero conversations is not an error. -/
def deleteMatching (s : Store) (opts : List SearchOption) : Store :=
  s.filter (fun c => !matchesAll opts c)

/-- Modelled from the spec: `ListConversations` orders by most recently
updated first (insertion sort on the update timestamp, descending). -/
def insertByUpdatedDesc (c : Conversation) : List Conversation → List Conversation
  | [] => [c]
  | x :: xs =>
    if x.updatedAt ≤ c.updatedAt then c :: x :: xs
    else x :: insertByUpdatedDesc c xs

/-- Modelled from the spec: filter by the scoping predicates, then order by
most recently updated first. -/
def listMatching (s : Store) (opts : List SearchOption) : List Conversation :=
  (s.filter (matchesAll opts)).foldr insertByUpdatedDesc []

/-- Response mode of a chat request; the orchestrator only asks whether it is
streaming (`req.ResponseMode.IsStreaming()`). -/
inductive ResponseMode where
  | blocking
  | streaming
deriving DecidableEq, Repr

/-- Whether the response mode requests streaming. -/
def ResponseMode.isStreaming : ResponseMode → Bool
  | .blocking => false
  | .streaming => true

/-- The chat request body consumed by `AppRun` (`ChatReqBody`). -/
structure ChatReqBody where
  appName : String
  appNamespace : String
  conversationID : String
  query : String
  newChat : Bool
  responseMode : ResponseMode
  debug : Bool
deriving DecidableEq, Repr

/-- The chat response body produced by `AppRun` (`ChatRespBody`). -/
structure ChatRespBody where
  conversationID : String
  messageID : String
  message : String
  createdAt : Nat
  references : Option (List Reference)
deriving DecidableEq, Repr

/-- One entry of the langchaingo chat-message history: either a user message
or an AI message. -/
inductive ChatMessage where
  | user (text : String)
  | ai (text : String)
deriving DecidableEq, Repr

/-- The input handed to the application runner
(`appruntime.Input - Question, NeedStream, History`). -/
structure RunInput where
  question : String
  needStream : Bool
  history : List ChatMessage
deriving DecidableEq, Repr

/-- The output of the application runner (`Output - Answer, References`).
The references slice may be nil. -/
structure RunOutput where
  answer : String
  references : Option (List Reference)
deriving DecidableEq, Repr

/-- Observable orchestrator events: the repository operations `AppRun`
performs and the runner invocation, in program order. -/
inductive TraceEv where
  | findConversation (conversationID : String) (opts : List SearchOption)
  | runnerInvoked (inp : RunInput)
  | updateConversation (c : Conversation)
deriving DecidableEq, Repr

/-- The collaborators `AppRun` consumes whose bodies are outside the
provided sources: the dynamic client lookup, the application GET, the
unstructured conversion, the readiness condition, the authenticated user
taken from the context, the app-runtime cache, the runner itself, and the
clock. -/
structure RunEnv where
  getClient : Except String Unit
  getApp : Except String Unit
  convertApp : Except String Unit
  appReady : Bool
  currentUser : String
  newAppOrGetFromCache : Except String Unit
  runnerRun : RunInput → Except String RunOutput
  now : Nat

/-- Outcome of one `AppRun` call: the returned value or error, the resulting
in-memory store, and the event trace. -/
structure AppRunResult where
  result : Except String ChatRespBody
  store : Store
  trace : List TraceEv
deriving Repr

/-- The scoping options built for the continuing-chat lookup (lines 147-154):
application name, application namespace, debug flag, and the user exactly
when the context carries a non-empty authenticated user. -/
def searchOptionsFor (req : ChatReqBody) (currentUser : String) : List SearchOption :=
  [.withAppName req.appName, .withAppNamespace req.appNamespace, .withDebug req.debug] ++
    (if currentUser != "" then [.withUser currentUser] else [])

/-- The history replay loop (lines 159-162): every prior message's query is
added as a user message, then its answer as an AI message, in order. -/
def replayHistory (ms : List Message) : List ChatMessage :=
  ms.foldl (fun h m => h ++ [.user m.query, .ai m.answer]) []

/-- Lines 191-193: set the answer and references of the last message. -/
def setLastAnswer (ans : String) (refs : Option (List Reference)) :
    List Message → List Message
  | [] => []
  | [m] => [{ m with answer := ans, references := refs }]
  | m :: rest => m :: setLastAnswer ans refs rest

/-- The tail of `AppRun` from the message append onward (lines 175-203); both
branches of the conversation resolution continue here with the resolved
conversation, the replayed history and the trace so far.

Modelled from the spec: the storage package is not under the provided
sources.  Its in-memory backend hands out the stored conversation object
itself, so for a conversation that was found in the store (a continuing
chat), `AppRun`'s in-place mutations — the append at line 175 and the answer
fill at lines 191-193 — are visible in the store even before
`UpdateConversation` (spec section 7: "a failed chat turn leaves an
empty-answer Message recorded").  A new chat's conversation is not in the
store, so its mutations stay local until `UpdateConversation` upserts it. -/
def runPipeline (env : RunEnv) (s : Store) (req : ChatReqBody) (messageID : String)
    (conversation : Conversation) (history : List ChatMessage)
    (tr : List TraceEv) : AppRunResult :=
  let aliased := !req.newChat
  let conv1 := { conversation with
    messages := conversation.messages ++ [⟨messageID, req.query, "", none⟩] }
  let s1 := if aliased then upsert s conv1 else s
  match env.newAppOrGetFromCache with
  | .error e => ⟨.error e, s1, tr⟩
  | .ok _ =>
    let inp : RunInput := ⟨req.query, req.responseMode.isStreaming, history⟩
    match env.runnerRun inp with
    | .error e => ⟨.error e, s1, tr ++ [.runnerInvoked inp]⟩
    | .ok out =>
      let conv2 := { conv1 with
        updatedAt := env.now,
        messages := setLastAnswer out.answer out.references conv1.messages }
      let s2 := if aliased then upsert s1 conv2 else s1
      ⟨.ok ⟨conv2.id, messageID, out.answer, env.now, out.references⟩,
        upsert s2 conv2,
        tr ++ [.runnerInvoked inp, .updateConversation conv2]⟩

/-- `ChatServer.AppRun` (lines 124-204): resolve the client and the
application, check readiness, resolve or create the conversation, replay the
history, append the new message, run the application, and persist the
completed turn. -/
def AppRun (env : RunEnv) (s : Store) (req : ChatReqBody) (messageID : String) :
    AppRunResult :=
  match env.getClient with
  | .error e => ⟨.error ("failed to get a dynamic client: " ++ e), s, []⟩
  | .ok _ =>
  match env.getApp with
  | .error e => ⟨.error ("failed to get application: " ++ e), s, []⟩
  | .ok _ =>
  match env.convertApp with
  | .error e => ⟨.error ("failed to convert application: " ++ e), s, []⟩
  | .ok _ =>
  if !env.appReady then ⟨.error "application is not ready", s, []⟩
  else
    if !req.newChat then
      let search := searchOptionsFor req env.currentUser
      match findExistingConversation s req.conversationID search with
      | .error e => ⟨.error e, s, [.findConversation req.conversationID search]⟩
      | .ok conversation =>
        runPipeline env s req messageID conversation
          (replayHistory conversation.messages)
          [.findConversation req.conversationID search]
    else
      runPipeline env s req messageID
        { id := req.conversationID, appName := req.appName,
          appNamespace := req.appNamespace, startedAt := env.now,
          updatedAt := env.now, messages := [], user := env.currentUser,
          debug := req.debug }
        [] []

/-- Application metadata of a listing request (`APPMetadata`). -/
structure APPMetadata where
  appName : String
  appNamespace : String
deriving DecidableEq, Repr

/-- Request body of `ListMessages` (`ConversationReqBody`). -/
structure ConversationReqBody where
  appName : String
  appNamespace : String
  conversationID : String
deriving DecidableEq, Repr

/-- Request body of `GetMessageReferences` (`MessageReqBody`). -/
structure MessageReqBody where
  appName : String
  appNamespace : String
  conversationID : String
  messageID : String
deriving DecidableEq, Repr

/-- The options `ChatServer.ListConversations` passes to the repository
(line 208): namespace, name, and the current user — the user option appears
twice in the source. -/
def listConversationsOpts (req : APPMetadata) (currentUser : String) :
    List SearchOption :=
  [.withAppNamespace req.appNamespace, .withAppName req.appName,
   .withUser currentUser, .withUser currentUser]

/-- The options `ChatServer.DeleteConversation` passes to the repository
(line 213): the conversation ID and the current user. -/
def deleteConversationOpts (conversationID currentUser : String) :
    List SearchOption :=
  [.withConversationID conversationID, .withUser currentUser]

/-- The options `ChatServer.ListMessages` passes to the repository
(line 218): namespace, name, namespace again (duplicated in the source), and
the current user. -/
def listMessagesOpts (req : ConversationReqBody) (currentUser : String) :
    List SearchOption :=
  [.withAppNamespace req.appNamespace, .withAppName req.appName,
   .withAppNamespace req.appNamespace, .withUser currentUser]

/-- The options `ChatServer.GetMessageReferences` passes to the repository
(line 230): namespace, name, namespace again (duplicated in the source), and
the current user. -/
def getMessageReferencesOpts (req : MessageReqBody) (currentUser : String) :
    List SearchOption :=
  [.withAppNamespace req.appNamespace, .withAppName req.appName,
   .withAppNamespace req.appNamespace, .withUser currentUser]

/-- `ChatServer.ListConversations` (lines 206-209). -/
def ListConversations (s : Store) (currentUser : String) (req : APPMetadata) :
    List Conversation :=
  listMatching s (listConversationsOpts req currentUser)

/-- `ChatServer.DeleteConversation` (lines 211-214). -/
def DeleteConversation (s : Store) (currentUser conversationID : String) : Store :=
  deleteMatching s (deleteConversationOpts conversationID currentUser)

/-- `ChatServer.ListMessages` (lines 216-226): look the conversation up with
the scoped options and return it; the lookup error propagates.  (The Go
branch for a nil conversation with a nil error cannot arise in the modelled
backend, which always returns either a conversation or an error.) -/
def ListMessages (s : Store) (currentUser : String) (req : ConversationReqBody) :
    Except String Conversation :=
  match findExistingConversation s req.conversationID
      (listMessagesOpts req currentUser) with
  | .error e => .error e
  | .ok c => .ok c

/-- `ChatServer.GetMessageReferences` (lines 228-238): find the message; when
it exists and its references slice is non-nil, return it, otherwise report
"conversation or message is not found". -/
def GetMessageReferences (s : Store) (currentUser : String) (req : MessageReqBody) :
    Except String (List Reference) :=
  match findExistingMessage s req.conversationID req.messageID
      (getMessageReferencesOpts req currentUser) with
  | .error e => .error e
  | .ok m =>
    match m.references with
    | some refs => .ok refs
    | none => .error "conversation or message is not found"

/-- A relational datasource description; its content is irrelevant to the
selection logic. -/
structure Datasource where
  name : String
deriving DecidableEq, Repr

/-- A PostgreSQL connection pool handle. -/
structure PGPool where
  id : Nat
deriving DecidableEq, Repr

/-- A connection acquired from the pool. -/
structure PGConn where
  id : Nat
deriving DecidableEq, Repr

/-- The chat storage backend finally selected. -/
inductive ChatStorage where
  | memory
  | postgres
deriving DecidableEq, Repr

/-- The collaborators of the storage selection whose bodies are outside the
provided sources: datasource discovery, pool construction, connection
acquisition, and relational-backend construction.  Discovery returns either
an error, no datasource, or a datasource — the Go convention that an error
comes with a nil result. -/
structure SelEnv where
  getRelationalDatasource : Except String (Option Datasource)
  getPostgreSQLPool : Datasource → Except String PGPool
  acquire : PGPool → Except String PGConn
  newPostgreSQLStorage : PGConn → Except String Unit

/-- Modelled from the spec: `datasource.GetPostgreSQLPool` is outside the
provided sources.  Per the spec the discovery collaborator "optionally
yields a connection pool"; with no datasource there is no pool to yield, so
the call fails when handed a nil datasource, and otherwise behaves as the
environment dictates. -/
def getPoolFor (env : SelEnv) : Option Datasource → Except String PGPool
  | none => .error "nil datasource"
  | some ds => env.getPostgreSQLPool ds

/-- The body of the `sync.Once` in `ChatServer.Storage` (lines 89-118),
including the missing early return after the memory fallback for a failed or
absent datasource lookup: control falls through to the pool step with a nil
datasource, whose failure selects the memory backend again. -/
def selectStorage (env : SelEnv) : ChatStorage :=
  let ds : Option Datasource :=
    match env.getRelationalDatasource with
    | .error _ => none
    | .ok d => d
  match getPoolFor env ds with
  | .error _ => .memory
  | .ok pool =>
    match env.acquire pool with
    | .error _ => .memory
    | .ok conn =>
      match env.newPostgreSQLStorage conn with
      | .error _ => .memory
      | .ok _ => .postgres

/-- Program counter of one goroutine running `ChatServer.Storage`
(lines 86-122): it reads `cs.storage` (the unguarded nil check), then calls
`cs.once.Do` when the read value was nil, then re-reads `cs.storage` for the
return. -/
inductive ThreadPC where
  | start
  | checked (r : Option ChatStorage)
  | ran
  | finished (ret : Option ChatStorage)
deriving DecidableEq, Repr

/-- Shared state of a `ChatServer` under concurrent `Storage` calls: the
`storage` field, the `sync.Once` done flag, a count of how many times the
once body physically executed, and each caller's program counter. -/
structure OnceState where
  storage : Option ChatStorage
  onceDone : Bool
  bodyRuns : Nat
  threads : List ThreadPC
deriving DecidableEq, Repr

/-- One interleaving step: thread `i` advances one instruction.  The
`once.Do` call is a single atomic step — `sync.Once` serializes the body
under its mutex and a caller returns from `Do` only after the body has
completed, so the whole call collapses to: run the body exactly when the
done flag is still clear. -/
def stepThread (env : SelEnv) (g : OnceState) (i : Nat) : OnceState :=
  match g.threads.get? i with
  | none => g
  | some pc =>
    match pc with
    | .start => { g with threads := g.threads.set i (.checked g.storage) }
    | .checked r =>
      if r = none then
        if g.onceDone then { g with threads := g.threads.set i .ran }
        else
          { g with
            storage := some (selectStorage env)
            onceDone := true
            bodyRuns := g.bodyRuns + 1
            threads := g.threads.set i .ran }
      else { g with threads := g.threads.set i .ran }
    | .ran => { g with threads := g.threads.set i (.finished g.storage) }
    | .finished _ => g

/-- Run a schedule: the list of thread indices chosen by the scheduler, in
order. -/
def runSched (env : SelEnv) (g : OnceState) : List Nat → OnceState
  | [] => g
  | i :: rest => runSched env (stepThread env g i) rest

/-- A fresh `ChatServer` with `n` concurrent first-time callers of
`Storage`. -/
def initOnce (n : Nat) : OnceState :=
  ⟨none, false, 0, List.replicate n .start⟩

/-- Does an option list carry an application-name predicate? -/
def optsHaveAppName (opts : List SearchOption) : Bool :=
  opts.any fun o =>
    match o with
    | .withAppName _ => true
    | _ => false

/-- Does an option list carry an application-namespace predicate? -/
def optsHaveAppNamespace (opts : List SearchOption) : Bool :=
  opts.any fun o =>
    match o with
    | .withAppNamespace _ => true
    | _ => false

/-- Does an option list carry a user predicate? -/
def optsHaveUser (opts : List SearchOption) : Bool :=
  opts.any fun o =>
    match o with
    | .withUser _ => true
    | _ => false

/-- Does a trace contain an `UpdateConversation` call? -/
def hasUpdateEv (tr : List TraceEv) : Bool :=
  tr.any fun e =>
    match e with
    | .updateConversation _ => true
    | _ => false

/-- A sample reference. -/
def refA : Reference := ⟨"doc1"⟩

/-- A completed message without references. -/
def msgNoRefs : Message := ⟨"m1", "q1", "a1", none⟩

/-- A completed message with one reference. -/
def msgWithRefs : Message := ⟨"m2", "q2", "a2", some [refA]⟩

/-- A stored conversation of user alice with two completed exchanges. -/
def convFix : Conversation := ⟨"c1", "app", "ns", 0, 5, [msgNoRefs, msgWithRefs], "alice", false⟩

/-- A store holding just `convFix`. -/
def storeFix : Store := [convFix]

/-- A selection environment whose datasource discovery fails. -/
def selEnvFailA : SelEnv :=
  ⟨.error "no config", fun _ => .error "no pool", fun _ => .error "no conn",
   fun _ => .error "no db"⟩

/-- A run environment whose application runner fails. -/
def envRunnerFail : RunEnv :=
  ⟨.ok (), .ok (), .ok (), true, "alice", .ok (), fun _ => .error "runner failed", 9⟩

/-- The runner output used by the success fixtures. -/
def outFix : RunOutput := ⟨"KubeAGI is a framework", some [refA]⟩

/-- A run environment whose application runner succeeds with `outFix`. -/
def envRunnerOk : RunEnv :=
  ⟨.ok (), .ok (), .ok (), true, "alice", .ok (), fun _ => .ok outFix, 7⟩

/-- A run environment whose application is not ready. -/
def envNotReady : RunEnv :=
  ⟨.ok (), .ok (), .ok (), false, "alice", .ok (), fun _ => .ok outFix, 7⟩

/-- A continuing-chat request against `convFix`. -/
def reqCont : ChatReqBody := ⟨"app", "ns", "c1", "q3", false, .blocking, false⟩

/-- A new-chat request. -/
def reqNew : ChatReqBody := ⟨"app", "ns", "c9", "what is kubeagi", true, .streaming, false⟩

/-- C5: every failure during storage selection — discovery error, no
datasource configured, pool creation failure, connection acquisition
failure, or relational-backend construction failure — makes `Storage` select
the in-memory backend; the failure never propagates (the selection function
is total and always yields a backend). -/
theorem storage_selection_falls_back_to_memory (env : SelEnv)
    (hfail :
      (∃ e, env.getRelationalDatasource = .error e) ∨
      env.getRelationalDatasource = .ok none ∨
      (∃ ds e, env.getRelationalDatasource = .ok (some ds) ∧
        env.getPostgreSQLPool ds = .error e) ∨
      (∃ ds pool e, env.getRelationalDatasource = .ok (some ds) ∧
        env.getPostgreSQLPool ds = .ok pool ∧ env.acquire pool = .error e) ∨
      (∃ ds pool conn e, env.getRelationalDatasource = .ok (some ds) ∧
        env.getPostgreSQLPool ds = .ok pool ∧ env.acquire pool = .ok conn ∧
        env.newPostgreSQLStorage conn = .error e)) :
    selectStorage env = ChatStorage.memory := by
  rcases hfail with ⟨e, h⟩ | h | ⟨ds, e, h1, h2⟩ | ⟨ds, pool, e, h1, h2, h3⟩ |
    ⟨ds, pool, conn, e, h1, h2, h3, h4⟩ <;>
    simp [selectStorage, getPoolFor, *]

/-- Witness for C5: a discovery failure selects the memory backend. -/
theorem storage_selection_falls_back_to_memory_witness :
    (∃ e, selEnvFailA.getRelationalDatasource = .error e) ∧
    selectStorage selEnvFailA = ChatStorage.memory :=
  ⟨⟨"no config", rfl⟩,
   storage_selection_falls_back_to_memory selEnvFailA (Or.inl ⟨"no config", rfl⟩)⟩

/-- C9 counterexample: `DeleteConversation` passes no application-identity
predicate at all — its repository call is scoped only by conversation ID and
user, refuting the claim that every listing/retrieval/delete operation
passes both the application identity and the user identity. -/
theorem deleteConversation_lacks_app_identity :
    optsHaveAppName (deleteConversationOpts "c1" "alice") = false ∧
    optsHaveAppNamespace (deleteConversationOpts "c1" "alice") = false ∧
    optsHaveUser (deleteConversationOpts "c1" "alice") = true := by
  decide

/-- C9 amended: `ListConversations`, `ListMessages` and
`GetMessageReferences` scope their repository call by application name,
application namespace and the current user, while `DeleteConversation`
scopes only by conversation ID and the current user. -/
theorem scoping_options_discipline (reqL : APPMetadata) (reqM : ConversationReqBody)
    (reqR : MessageReqBody) (u cid : String) :
    (optsHaveAppName (listConversationsOpts reqL u) = true ∧
      optsHaveAppNamespace (listConversationsOpts reqL u) = true ∧
      SearchOption.withUser u ∈ listConversationsOpts reqL u) ∧
    (optsHaveAppName (listMessagesOpts reqM u) = true ∧
      optsHaveAppNamespace (listMessagesOpts reqM u) = true ∧
      SearchOption.withUser u ∈ listMessagesOpts reqM u) ∧
    (optsHaveAppName (getMessageReferencesOpts reqR u) = true ∧
      optsHaveAppNamespace (getMessageReferencesOpts reqR u) = true ∧
      SearchOption.withUser u ∈ getMessageReferencesOpts reqR u) ∧
    deleteConversationOpts cid u = [.withConversationID cid, .withUser u] := by
  simp [optsHaveAppName, optsHaveAppNamespace, listConversationsOpts,
    listMessagesOpts, getMessageReferencesOpts, deleteConversationOpts]

/-- C10: when `FindExistingMessage` succeeds, `GetMessageReferences` returns
the "conversation or message is not found" error exactly when the found
message's references slice is nil, and returns the references exactly when
it is non-nil. -/
theorem getMessageReferences_nil_refs (s : Store) (u : String) (req : MessageReqBody)
    (m : Message)
    (hfind : findExistingMessage s req.conversationID req.messageID
      (getMessageReferencesOpts req u) = .ok m) :
    (m.references = none →
      GetMessageReferences s u req = .error "conversation or message is not found") ∧
    (∀ refs, m.references = some refs → GetMessageReferences s u req = .ok refs) := by
  constructor
  · intro hnil
    simp [GetMessageReferences, hfind, hnil]
  · intro refs hsome
    simp [GetMessageReferences, hfind, hsome]

/-- Witness for C10: in `storeFix`, message m1 has a nil references slice and
`GetMessageReferences` reports it as not found. -/
theorem getMessageReferences_nil_refs_witness :
    findExistingMessage storeFix "c1" "m1"
      (getMessageReferencesOpts ⟨"app", "ns", "c1", "m1"⟩ "alice") = .ok msgNoRefs ∧
    ((msgNoRefs.references = none →
      GetMessageReferences storeFix "alice" ⟨"app", "ns", "c1", "m1"⟩ =
        .error "conversation or message is not found") ∧
    (∀ refs, msgNoRefs.references = some refs →
      GetMessageReferences storeFix "alice" ⟨"app", "ns", "c1", "m1"⟩ = .ok refs)) :=
  ⟨rfl,
   getMessageReferences_nil_refs storeFix "alice" ⟨"app", "ns", "c1", "m1"⟩ msgNoRefs rfl⟩

lemma replayHistory_aux (ms : List Message) (acc : List ChatMessage) :
    ms.foldl (fun h m => h ++ [.user m.query, .ai m.answer]) acc =
      acc ++ ms.flatMap (fun m => [.user m.query, .ai m.answer]) := by
  induction ms generalizing acc with
  | nil => simp
  | cons m rest ih => simp [List.foldl_cons, ih]

/-- The history replay loop produces, for each prior message in order, its
query as a user entry then its answer as an AI entry. -/
lemma replayHistory_eq_bind (ms : List Message) :
    replayHistory ms = ms.flatMap (fun m => [.user m.query, .ai m.answer]) := by
  simpa [replayHistory] using replayHistory_aux ms []

/-- The replayed history has two entries per prior message. -/
lemma replayHistory_length (ms : List Message) :
    (replayHistory ms).length = 2 * ms.length := by
  rw [replayHistory_eq_bind]
  induction ms with
  | nil => simp
  | cons m rest ih => simp [ih]; omega

lemma optionMatches_set_messages (c : Conversation) (ms : List Message)
    (o : SearchOption) :
    optionMatches { c with messages := ms } o = optionMatches c o := by
  cases o <;> rfl

/-- The scoping predicates never inspect the message sequence. -/
lemma matchesAll_set_messages (opts : List SearchOption) (c : Conversation)
    (ms : List Message) :
    matchesAll opts { c with messages := ms } = matchesAll opts c := by
  induction opts with
  | nil => rfl
  | cons o rest ih =>
    simp only [matchesAll, List.all_cons] at ih ⊢
    rw [optionMatches_set_messages, ih]

/-- What a successful conversation lookup guarantees: the found conversation
has the requested ID and satisfies every scoping predicate. -/
lemma findExistingConversation_props (s : Store) (cid : String)
    (opts : List SearchOption) (conv : Conversation)
    (h : findExistingConversation s cid opts = .ok conv) :
    conv.id = cid ∧ matchesAll opts conv = true := by
  unfold findExistingConversation at h
  cases hf : s.find? (fun c => c.id == cid && matchesAll opts c) with
  | none => rw [hf] at h; cases h
  | some c =>
    rw [hf] at h
    cases h
    have hp := List.find?_some hf
    simp only [Bool.and_eq_true, beq_iff_eq] at hp
    exact hp

lemma findUpsertAux1 (s : Store) (c : Conversation) (cid : String)
    (opts : List SearchOption) (hid : c.id = cid) (hm : matchesAll opts c = true)
    (hx : ∃ x ∈ s, (x.id == c.id) = true) :
    (s.map (fun x => if x.id == c.id then c else x)).find?
      (fun x => x.id == cid && matchesAll opts x) = some c := by
  induction s with
  | nil => simp at hx
  | cons y ys ih =>
    simp only [List.map_cons]
    by_cases hy : (y.id == c.id) = true
    · rw [if_pos hy]
      apply List.find?_cons_of_pos
      simp [hid, hm]
    · rw [if_neg hy]
      rw [List.find?_cons_of_neg]
      · apply ih
        rcases hx with ⟨x, hmem, hxid⟩
        rcases List.mem_cons.mp hmem with rfl | hmem
        · exact absurd hxid hy
        · exact ⟨x, hmem, hxid⟩
      · subst hid
        have hne : ¬ y.id = c.id := by simpa using hy
        simp [hne]

lemma findUpsertAux2 (s : Store) (c : Conversation) (cid : String)
    (opts : List SearchOption) (hid : c.id = cid) (hm : matchesAll opts c = true)
    (hx : ∀ x ∈ s, (x.id == c.id) = false) :
    (s ++ [c]).find? (fun x => x.id == cid && matchesAll opts x) = some c := by
  induction s with
  | nil =>
    simp only [List.nil_append]
    apply List.find?_cons_of_pos
    simp [hid, hm]
  | cons y ys ih =>
    simp only [List.cons_append]
    rw [List.find?_cons_of_neg]
    · exact ih (fun x hmem => hx x (List.mem_cons_of_mem y hmem))
    · have hne : ¬ y.id = c.id := by
        simpa using hx y (List.mem_cons_self y ys)
      subst hid
      simp [hne]

/-- Upserting a conversation that carries the requested ID and satisfies the
scoping predicates makes the subsequent scoped lookup return exactly it. -/
lemma findExistingConversation_upsert (s : Store) (c : Conversation)
    (cid : String) (opts : List SearchOption)
    (hid : c.id = cid) (hm : matchesAll opts c = true) :
    findExistingConversation (upsert s c) cid opts = .ok c := by
  unfold findExistingConversation upsert
  by_cases h : s.any (fun x => x.id == c.id) = true
  · rw [if_pos h, findUpsertAux1 s c cid opts hid hm]
    rcases List.any_eq_true.mp h with ⟨x, hmem, hxid⟩
    exact ⟨x, hmem, hxid⟩
  · rw [if_neg h, findUpsertAux2 s c cid opts hid hm]
    intro x hmem
    by_contra hcon
    exact h (List.any_eq_true.mpr ⟨x, hmem, by simpa using hcon⟩)

/-- C4: when the application lookup fails, the conversion fails, or the
readiness condition is false, `AppRun` returns an error before any
repository operation: the trace is empty and the store is untouched. -/
theorem apprun_unready_app_no_repo_ops (env : RunEnv) (s : Store)
    (req : ChatReqBody) (mid : String)
    (hclient : env.getClient = .ok ())
    (hfail : (∃ e, env.getApp = .error e) ∨ (∃ e, env.convertApp = .error e) ∨
      env.appReady = false) :
    (∃ e, (AppRun env s req mid).result = .error e) ∧
    (AppRun env s req mid).trace = [] ∧
    (AppRun env s req mid).store = s := by
  rcases hfail with ⟨e, h⟩ | ⟨e, h⟩ | h
  · exact ⟨⟨"failed to get application: " ++ e, by simp [AppRun, hclient, h]⟩,
      by simp [AppRun, hclient, h], by simp [AppRun, hclient, h]⟩
  · cases hga : env.getApp with
    | error e2 =>
      exact ⟨⟨"failed to get application: " ++ e2, by simp [AppRun, hclient, hga]⟩,
        by simp [AppRun, hclient, hga], by simp [AppRun, hclient, hga]⟩
    | ok u =>
      cases u
      exact ⟨⟨"failed to convert application: " ++ e, by simp [AppRun, hclient, hga, h]⟩,
        by simp [AppRun, hclient, hga, h], by simp [AppRun, hclient, hga, h]⟩
  · cases hga : env.getApp with
    | error e2 =>
      exact ⟨⟨"failed to get application: " ++ e2, by simp [AppRun, hclient, hga]⟩,
        by simp [AppRun, hclient, hga], by simp [AppRun, hclient, hga]⟩
    | ok u =>
      cases u
      cases hca : env.convertApp with
      | error e2 =>
        exact ⟨⟨"failed to convert application: " ++ e2,
          by simp [AppRun, hclient, hga, hca]⟩,
          by simp [AppRun, hclient, hga, hca], by simp [AppRun, hclient, hga, hca]⟩
      | ok v =>
        cases v
        exact ⟨⟨"application is not ready", by simp [AppRun, hclient, hga, hca, h]⟩,
          by simp [AppRun, hclient, hga, hca, h], by simp [AppRun, hclient, hga, hca, h]⟩

/-- Witness for C4: an unready application yields an error, an empty trace
and an unchanged store. -/
theorem apprun_unready_app_no_repo_ops_witness :
    envNotReady.getClient = .ok () ∧ envNotReady.appReady = false ∧
    ((∃ e, (AppRun envNotReady storeFix reqCont "m3").result = .error e) ∧
     (AppRun envNotReady storeFix reqCont "m3").trace = [] ∧
     (AppRun envNotReady storeFix reqCont "m3").store = storeFix) :=
  ⟨rfl, rfl,
   apprun_unready_app_no_repo_ops envNotReady storeFix reqCont "m3" rfl
     (Or.inr (Or.inr rfl))⟩

/-- C7: a continuing chat looks the conversation up under the application
name, application namespace and debug predicates, adding the user predicate
exactly when the context carries a non-empty authenticated user; when the
lookup finds no match, `AppRun` returns the lookup error, performs nothing
else (the trace holds only the lookup) and leaves the store unchanged. -/
theorem apprun_continuing_not_found (env : RunEnv) (s : Store)
    (req : ChatReqBody) (mid e : String)
    (hclient : env.getClient = .ok ()) (happ : env.getApp = .ok ())
    (hconv : env.convertApp = .ok ()) (hready : env.appReady = true)
    (hnew : req.newChat = false)
    (hfind : findExistingConversation s req.conversationID
      (searchOptionsFor req env.currentUser) = .error e) :
    AppRun env s req mid =
      ⟨.error e, s,
        [.findConversation req.conversationID (searchOptionsFor req env.currentUser)]⟩ ∧
    searchOptionsFor req env.currentUser =
      [.withAppName req.appName, .withAppNamespace req.appNamespace,
        .withDebug req.debug] ++
        (if env.currentUser ≠ "" then [.withUser env.currentUser] else []) := by
  constructor
  · simp [AppRun, hclient, happ, hconv, hready, hnew, hfind]
  · by_cases h : env.currentUser = "" <;> simp [searchOptionsFor, h]

/-- Witness for C7: looking up conversation c1 in an empty store fails and
`AppRun` stops at the lookup. -/
theorem apprun_continuing_not_found_witness :
    findExistingConversation ([] : Store) reqCont.conversationID
      (searchOptionsFor reqCont envRunnerOk.currentUser) =
      .error "conversation is not found" ∧
    (AppRun envRunnerOk ([] : Store) reqCont "m3" =
      ⟨.error "conversation is not found", ([] : Store),
        [.findConversation reqCont.conversationID
          (searchOptionsFor reqCont envRunnerOk.currentUser)]⟩ ∧
    searchOptionsFor reqCont envRunnerOk.currentUser =
      [.withAppName reqCont.appName, .withAppNamespace reqCont.appNamespace,
        .withDebug reqCont.debug] ++
        (if envRunnerOk.currentUser ≠ "" then [.withUser envRunnerOk.currentUser]
         else [])) :=
  ⟨rfl,
   apprun_continuing_not_found envRunnerOk ([] : Store) reqCont "m3"
     "conversation is not found" rfl rfl rfl rfl rfl rfl⟩

/-- C1: a new chat on a ready application creates a conversation whose ID is
the request's conversation ID and whose single message carries the query and
the runner's answer and references, persists it through
`UpdateConversation`, and answers with the conversation ID, the
caller-supplied message ID, the runner's answer and its references. -/
theorem apprun_new_chat_creates_and_persists (env : RunEnv) (s : Store)
    (req : ChatReqBody) (mid : String) (out : RunOutput)
    (hclient : env.getClient = .ok ()) (happ : env.getApp = .ok ())
    (hconv : env.convertApp = .ok ()) (hready : env.appReady = true)
    (hcache : env.newAppOrGetFromCache = .ok ())
    (hrun : ∀ inp, env.runnerRun inp = .ok out)
    (hnew : req.newChat = true) :
    ∃ conv : Conversation,
      conv.id = req.conversationID ∧
      conv.messages = [⟨mid, req.query, out.answer, out.references⟩] ∧
      (AppRun env s req mid).result =
        .ok ⟨conv.id, mid, out.answer, env.now, out.references⟩ ∧
      (AppRun env s req mid).trace =
        [.runnerInvoked ⟨req.query, req.responseMode.isStreaming, []⟩,
         .updateConversation conv] ∧
      (AppRun env s req mid).store = upsert s conv := by
  refine ⟨⟨req.conversationID, req.appName, req.appNamespace, env.now, env.now,
    [⟨mid, req.query, out.answer, out.references⟩], env.currentUser, req.debug⟩,
    rfl, rfl, ?_, ?_, ?_⟩ <;>
    simp [AppRun, runPipeline, hclient, happ, hconv, hready, hnew, hcache, hrun,
      setLastAnswer]

/-- Witness for C1: a concrete new chat against an empty store. -/
theorem apprun_new_chat_creates_and_persists_witness :
    envRunnerOk.getClient = .ok () ∧ (∀ inp, envRunnerOk.runnerRun inp = .ok outFix) ∧
    reqNew.newChat = true ∧
    (∃ conv : Conversation,
      conv.id = reqNew.conversationID ∧
      conv.messages = [⟨"m1", reqNew.query, outFix.answer, outFix.references⟩] ∧
      (AppRun envRunnerOk ([] : Store) reqNew "m1").result =
        .ok ⟨conv.id, "m1", outFix.answer, envRunnerOk.now, outFix.references⟩ ∧
      (AppRun envRunnerOk ([] : Store) reqNew "m1").trace =
        [.runnerInvoked ⟨reqNew.query, reqNew.responseMode.isStreaming, []⟩,
         .updateConversation conv] ∧
      (AppRun envRunnerOk ([] : Store) reqNew "m1").store = upsert ([] : Store) conv) :=
  ⟨rfl, fun _ => rfl, rfl,
   apprun_new_chat_creates_and_persists envRunnerOk ([] : Store) reqNew "m1" outFix
     rfl rfl rfl rfl rfl (fun _ => rfl) rfl⟩

/-- C2 counterexample: a continuing chat whose runner fails returns the
runner error and never calls `UpdateConversation`, yet the stored
conversation state is NOT unchanged — the in-memory backend already holds
the appended empty-answer message, refuting the claim's "stored conversation
state is unchanged by the failed turn". -/
theorem apprun_runner_error_still_mutates_store :
    (AppRun envRunnerFail storeFix reqCont "m3").result = .error "runner failed" ∧
    hasUpdateEv (AppRun envRunnerFail storeFix reqCont "m3").trace = false ∧
    (AppRun envRunnerFail storeFix reqCont "m3").store ≠ storeFix :=
  ⟨rfl, rfl, by decide⟩

/-- C2 amended: when the runner fails, `AppRun` returns that error and never
calls `UpdateConversation`; a new chat leaves the store unchanged, while a
continuing conversation's stored record already holds the appended
empty-answer message through the in-memory backend's aliasing. -/
theorem apprun_runner_error_returns_error_no_update (env : RunEnv) (s : Store)
    (req : ChatReqBody) (mid e : String)
    (hclient : env.getClient = .ok ()) (happ : env.getApp = .ok ())
    (hconv : env.convertApp = .ok ()) (hready : env.appReady = true)
    (hcache : env.newAppOrGetFromCache = .ok ())
    (hrun : ∀ inp, env.runnerRun inp = .error e)
    (hresolve : req.newChat = true ∨ ∃ c, findExistingConversation s
      req.conversationID (searchOptionsFor req env.currentUser) = .ok c) :
    (AppRun env s req mid).result = .error e ∧
    hasUpdateEv (AppRun env s req mid).trace = false ∧
    (req.newChat = true → (AppRun env s req mid).store = s) ∧
    (∀ c, req.newChat = false →
      findExistingConversation s req.conversationID
        (searchOptionsFor req env.currentUser) = .ok c →
      (AppRun env s req mid).store =
        upsert s { c with messages := c.messages ++ [⟨mid, req.query, "", none⟩] }) := by
  rcases hresolve with hnew | ⟨c, hfind⟩
  · refine ⟨?_, ?_, fun _ => ?_, fun c hfalse _ => absurd hnew (by simp [hfalse])⟩ <;>
      simp [AppRun, runPipeline, hasUpdateEv, hclient, happ, hconv, hready, hnew,
        hcache, hrun]
  · cases hnewc : req.newChat with
    | true =>
      refine ⟨?_, ?_, fun _ => ?_, fun c2 hfalse _ => by simp [hnewc] at hfalse⟩ <;>
        simp [AppRun, runPipeline, hasUpdateEv, hclient, happ, hconv, hready, hnewc,
          hcache, hrun]
    | false =>
      refine ⟨?_, ?_, fun habs => by simp [hnewc] at habs, fun c2 _ hfind2 => ?_⟩
      · simp [AppRun, runPipeline, hasUpdateEv, hclient, happ, hconv, hready, hnewc,
          hcache, hrun, hfind]
      · simp [AppRun, runPipeline, hasUpdateEv, hclient, happ, hconv, hready, hnewc,
          hcache, hrun, hfind]
      · rw [hfind2] at hfind
        cases hfind
        simp [AppRun, runPipeline, hclient, happ, hconv, hready, hnewc, hcache,
          hrun, hfind2]

/-- Witness for C2 amended: the continuing-chat fixture with a failing
runner. -/
theorem apprun_runner_error_returns_error_no_update_witness :
    (∀ inp, envRunnerFail.runnerRun inp = .error "runner failed") ∧
    (∃ c, findExistingConversation storeFix reqCont.conversationID
      (searchOptionsFor reqCont envRunnerFail.currentUser) = .ok c) ∧
    ((AppRun envRunnerFail storeFix reqCont "m3").result = .error "runner failed" ∧
     hasUpdateEv (AppRun envRunnerFail storeFix reqCont "m3").trace = false ∧
     (reqCont.newChat = true → (AppRun envRunnerFail storeFix reqCont "m3").store = storeFix) ∧
     (∀ c, reqCont.newChat = false →
       findExistingConversation storeFix reqCont.conversationID
         (searchOptionsFor reqCont envRunnerFail.currentUser) = .ok c →
       (AppRun envRunnerFail storeFix reqCont "m3").store =
         upsert storeFix { c with messages := c.messages ++ [⟨"m3", reqCont.query, "", none⟩] })) :=
  ⟨fun _ => rfl, ⟨convFix, rfl⟩,
   apprun_runner_error_returns_error_no_update envRunnerFail storeFix reqCont "m3"
     "runner failed" rfl rfl rfl rfl rfl (fun _ => rfl) (Or.inr ⟨convFix, rfl⟩)⟩

/-- C3 counterexample: in a failed NEW chat the append still precedes the
runner, but nothing is stored — the runner error leaves the store empty and
a subsequent lookup of the conversation reports not-found, refuting the
claim that a failure during pipeline execution leaves an empty-answer
message that a subsequent listing shows. -/
theorem apprun_new_chat_failure_leaves_no_record :
    (AppRun envRunnerFail ([] : Store) reqNew "m1").result = .error "runner failed" ∧
    (AppRun envRunnerFail ([] : Store) reqNew "m1").store = [] ∧
    ListMessages (AppRun envRunnerFail ([] : Store) reqNew "m1").store "alice"
      ⟨"app", "ns", "c9"⟩ = .error "conversation is not found" :=
  ⟨rfl, rfl, rfl⟩

/-- C3 amended: the new message (caller-supplied ID, query, empty answer) is
appended before the runner executes; for a CONTINUING conversation a failure
during pipeline execution leaves that empty-answer message recorded in the
store — a subsequent scoped lookup shows it — while a failed new chat leaves
no stored record at all (the conversation only reaches the store through
`UpdateConversation` on success). -/
theorem apprun_append_precedes_runner (env : RunEnv) (s : Store)
    (req : ChatReqBody) (mid e : String) (conv : Conversation)
    (hclient : env.getClient = .ok ()) (happ : env.getApp = .ok ())
    (hconv : env.convertApp = .ok ()) (hready : env.appReady = true)
    (hcache : env.newAppOrGetFromCache = .ok ())
    (hnew : req.newChat = false)
    (hfind : findExistingConversation s req.conversationID
      (searchOptionsFor req env.currentUser) = .ok conv)
    (hrun : ∀ inp, env.runnerRun inp = .error e) :
    (AppRun env s req mid).result = .error e ∧
    (AppRun env s req mid).trace =
      [.findConversation req.conversationID (searchOptionsFor req env.currentUser),
       .runnerInvoked ⟨req.query, req.responseMode.isStreaming,
         replayHistory conv.messages⟩] ∧
    (AppRun env s req mid).store =
      upsert s { conv with messages := conv.messages ++ [⟨mid, req.query, "", none⟩] } ∧
    findExistingConversation (AppRun env s req mid).store req.conversationID
        (searchOptionsFor req env.currentUser) =
      .ok { conv with messages := conv.messages ++ [⟨mid, req.query, "", none⟩] } := by
  obtain ⟨hid, hm⟩ := findExistingConversation_props s req.conversationID
    (searchOptionsFor req env.currentUser) conv hfind
  have hstore : (AppRun env s req mid).store =
      upsert s { conv with messages := conv.messages ++ [⟨mid, req.query, "", none⟩] } := by
    simp [AppRun, runPipeline, hclient, happ, hconv, hready, hnew, hcache, hrun, hfind]
  refine ⟨?_, ?_, hstore, ?_⟩
  · simp [AppRun, runPipeline, hclient, happ, hconv, hready, hnew, hcache, hrun, hfind]
  · simp [AppRun, runPipeline, hclient, happ, hconv, hready, hnew, hcache, hrun, hfind]
  · rw [hstore]
    exact findExistingConversation_upsert s _ req.conversationID _
      hid (by rw [matchesAll_set_messages]; exact hm)

/-- Witness for C3 amended: the continuing-chat fixture with a failing
runner; the store afterwards holds conversation c1 extended by the
empty-answer message m3 and the scoped lookup returns it. -/
theorem apprun_append_precedes_runner_witness :
    reqCont.newChat = false ∧
    findExistingConversation storeFix reqCont.conversationID
      (searchOptionsFor reqCont envRunnerFail.currentUser) = .ok convFix ∧
    ((AppRun envRunnerFail storeFix reqCont "m3").result = .error "runner failed" ∧
     (AppRun envRunnerFail storeFix reqCont "m3").trace =
       [.findConversation reqCont.conversationID
          (searchOptionsFor reqCont envRunnerFail.currentUser),
        .runnerInvoked ⟨reqCont.query, reqCont.responseMode.isStreaming,
          replayHistory convFix.messages⟩] ∧
     (AppRun envRunnerFail storeFix reqCont "m3").store =
       upsert storeFix { convFix with
         messages := convFix.messages ++ [⟨"m3", reqCont.query, "", none⟩] } ∧
     findExistingConversation (AppRun envRunnerFail storeFix reqCont "m3").store
         reqCont.conversationID (searchOptionsFor reqCont envRunnerFail.currentUser) =
       .ok { convFix with
         messages := convFix.messages ++ [⟨"m3", reqCont.query, "", none⟩] }) :=
  ⟨rfl, rfl,
   apprun_append_precedes_runner envRunnerFail storeFix reqCont "m3" "runner failed"
     convFix rfl rfl rfl rfl rfl rfl rfl (fun _ => rfl)⟩

/-- C8: the history handed to the runner replays, for each prior message of
the found conversation in original order, its query as a user entry then its
answer as an AI entry — two entries per prior message, built from the
conversation as found, i.e. before the new message is appended — and a new
chat runs with an empty history. -/
theorem apprun_history_replay (env : RunEnv) (s : Store) (req : ChatReqBody)
    (mid : String)
    (hclient : env.getClient = .ok ()) (happ : env.getApp = .ok ())
    (hconv : env.convertApp = .ok ()) (hready : env.appReady = true)
    (hcache : env.newAppOrGetFromCache = .ok ()) :
    (∀ conv, req.newChat = false →
      findExistingConversation s req.conversationID
        (searchOptionsFor req env.currentUser) = .ok conv →
      TraceEv.runnerInvoked
          ⟨req.query, req.responseMode.isStreaming, replayHistory conv.messages⟩ ∈
        (AppRun env s req mid).trace ∧
      replayHistory conv.messages =
        conv.messages.flatMap (fun m => [.user m.query, .ai m.answer]) ∧
      (replayHistory conv.messages).length = 2 * conv.messages.length) ∧
    (req.newChat = true →
      TraceEv.runnerInvoked ⟨req.query, req.responseMode.isStreaming, []⟩ ∈
        (AppRun env s req mid).trace) := by
  constructor
  · intro conv hnew hfind
    refine ⟨?_, replayHistory_eq_bind conv.messages, replayHistory_length conv.messages⟩
    cases hr : env.runnerRun ⟨req.query, req.responseMode.isStreaming,
        replayHistory conv.messages⟩ with
    | error e2 =>
      simp [AppRun, runPipeline, hclient, happ, hconv, hready, hnew, hcache, hfind, hr]
    | ok out =>
      simp [AppRun, runPipeline, hclient, happ, hconv, hready, hnew, hcache, hfind, hr]
  · intro hnew
    cases hr : env.runnerRun ⟨req.query, req.responseMode.isStreaming, []⟩ with
    | error e2 =>
      simp [AppRun, runPipeline, hclient, happ, hconv, hready, hnew, hcache, hr]
    | ok out =>
      simp [AppRun, runPipeline, hclient, happ, hconv, hready, hnew, hcache, hr]

/-- Witness for C8: the continuing-chat fixture has two prior exchanges, so
the runner receives exactly their four history entries in order. -/
theorem apprun_history_replay_witness :
    envRunnerOk.getClient = .ok () ∧ envRunnerOk.newAppOrGetFromCache = .ok () ∧
    ((∀ conv, reqCont.newChat = false →
      findExistingConversation storeFix reqCont.conversationID
        (searchOptionsFor reqCont envRunnerOk.currentUser) = .ok conv →
      TraceEv.runnerInvoked
          ⟨reqCont.query, reqCont.responseMode.isStreaming, replayHistory conv.messages⟩ ∈
        (AppRun envRunnerOk storeFix reqCont "m3").trace ∧
      replayHistory conv.messages =
        conv.messages.flatMap (fun m => [.user m.query, .ai m.answer]) ∧
      (replayHistory conv.messages).length = 2 * conv.messages.length) ∧
    (reqCont.newChat = true →
      TraceEv.runnerInvoked ⟨reqCont.query, reqCont.responseMode.isStreaming, []⟩ ∈
        (AppRun envRunnerOk storeFix reqCont "m3").trace)) :=
  ⟨rfl, rfl,
   apprun_history_replay envRunnerOk storeFix reqCont "m3" rfl rfl rfl rfl rfl⟩

/-- Per-thread invariant of the `Storage` interleaving model: a thread that
saw a non-nil `cs.storage`, or that passed `once.Do`, can only have seen the
selected backend, and the once flag must already be set. -/
def pcOK (env : SelEnv) (done : Bool) : ThreadPC → Prop
  | .checked (some b) => b = selectStorage env ∧ done = true
  | .ran => done = true
  | .finished r => r = some (selectStorage env) ∧ done = true
  | _ => True

lemma pcOK_true_of (env : SelEnv) (d : Bool) (pc : ThreadPC) (h : pcOK env d pc) :
    pcOK env true pc := by
  cases pc with
  | start => trivial
  | checked r =>
    cases r with
    | none => trivial
    | some b => exact ⟨h.1, rfl⟩
  | ran => rfl
  | finished r => exact ⟨h.1, rfl⟩

/-- Global invariant of the `Storage` interleaving model: either nothing has
been initialized yet (no storage, once flag clear, zero body runs), or the
body has run exactly once and `cs.storage` holds the selected backend; and
every thread's program counter is consistent with that. -/
def OnceInv (env : SelEnv) (g : OnceState) : Prop :=
  (g.storage = none ∧ g.onceDone = false ∧ g.bodyRuns = 0 ∨
   g.storage = some (selectStorage env) ∧ g.onceDone = true ∧ g.bodyRuns = 1) ∧
  ∀ pc ∈ g.threads, pcOK env g.onceDone pc

lemma onceInv_init (env : SelEnv) (n : Nat) : OnceInv env (initOnce n) := by
  refine ⟨Or.inl ⟨rfl, rfl, rfl⟩, fun pc hmem => ?_⟩
  rw [List.eq_of_mem_replicate hmem]
  trivial

lemma onceInv_step (env : SelEnv) (g : OnceState) (i : Nat) (h : OnceInv env g) :
    OnceInv env (stepThread env g i) := by
  obtain ⟨hglob, hth⟩ := h
  simp only [stepThread]
  cases hget : g.threads.get? i with
  | none => exact ⟨hglob, hth⟩
  | some pc =>
    have hpc := hth pc (List.get?_mem hget)
    cases pc with
    | start =>
      dsimp only
      refine ⟨hglob, fun pc2 hmem => ?_⟩
      rcases List.mem_or_eq_of_mem_set hmem with hmem2 | rfl
      · exact hth pc2 hmem2
      · cases hs : g.storage with
        | none => trivial
        | some b =>
          rcases hglob with ⟨hs2, _, _⟩ | ⟨hs2, hd, _⟩
          · rw [hs] at hs2; cases hs2
          · rw [hs] at hs2
            injection hs2 with hb
            exact ⟨hb, hd⟩
    | checked r =>
      cases r with
      | none =>
        dsimp only
        rw [if_pos rfl]
        cases hDone : g.onceDone with
        | true =>
          rw [if_pos rfl]
          refine ⟨?_, fun pc2 hmem => ?_⟩
          · rcases hglob with ⟨_, hd2, _⟩ | ⟨hs, _, hb⟩
            · rw [hDone] at hd2
              exact Bool.noConfusion hd2
            · exact Or.inr ⟨hs, rfl, hb⟩
          · rcases List.mem_or_eq_of_mem_set hmem with hmem2 | rfl
            · exact pcOK_true_of env g.onceDone pc2 (hth pc2 hmem2)
            · rfl
        | false =>
          rw [if_neg (by simp)]
          rcases hglob with ⟨_, _, hruns⟩ | ⟨_, hd2, _⟩
          · refine ⟨Or.inr ⟨rfl, rfl, by rw [hruns]⟩, fun pc2 hmem => ?_⟩
            rcases List.mem_or_eq_of_mem_set hmem with hmem2 | rfl
            · exact pcOK_true_of env g.onceDone pc2 (hth pc2 hmem2)
            · rfl
          · rw [hDone] at hd2
            exact Bool.noConfusion hd2
      | some b =>
        dsimp only
        rw [if_neg (by simp)]
        refine ⟨hglob, fun pc2 hmem => ?_⟩
        rcases List.mem_or_eq_of_mem_set hmem with hmem2 | rfl
        · exact hth pc2 hmem2
        · exact hpc.2
    | ran =>
      dsimp only
      refine ⟨hglob, fun pc2 hmem => ?_⟩
      rcases List.mem_or_eq_of_mem_set hmem with hmem2 | rfl
      · exact hth pc2 hmem2
      · rcases hglob with ⟨_, hd, _⟩ | ⟨hs, hd, _⟩
        · rw [hpc] at hd; cases hd
        · exact ⟨hs, hd⟩
    | finished r => exact ⟨hglob, hth⟩

lemma onceInv_runSched (env : SelEnv) (sched : List Nat) (g : OnceState)
    (h : OnceInv env g) : OnceInv env (runSched env g sched) := by
  induction sched generalizing g with
  | nil => exact h
  | cons i rest ih => exact ih _ (onceInv_step env g i h)

lemma stepThread_onceDone_mono (env : SelEnv) (g : OnceState) (i : Nat)
    (hd : g.onceDone = true) : (stepThread env g i).onceDone = true := by
  simp only [stepThread]
  cases hget : g.threads.get? i with
  | none => exact hd
  | some pc =>
    cases pc with
    | start => exact hd
    | checked r =>
      cases r with
      | none =>
        dsimp only
        rw [if_pos rfl, if_pos hd]
        exact hd
      | some b =>
        dsimp only
        rw [if_neg (by simp)]
        exact hd
    | ran => exact hd
    | finished r => exact hd

lemma runSched_onceDone_mono (env : SelEnv) (sched : List Nat) (g : OnceState)
    (hd : g.onceDone = true) : (runSched env g sched).onceDone = true := by
  induction sched generalizing g with
  | nil => exact hd
  | cons i rest ih => exact ih _ (stepThread_onceDone_mono env g i hd)

lemma stepThread_threads_length (env : SelEnv) (g : OnceState) (i : Nat) :
    (stepThread env g i).threads.length = g.threads.length := by
  simp only [stepThread]
  cases hget : g.threads.get? i with
  | none => rfl
  | some pc =>
    cases pc with
    | start => simp
    | checked r =>
      cases r with
      | none =>
        dsimp only
        rw [if_pos rfl]
        cases hDone : g.onceDone with
        | true => rw [if_pos rfl]; simp
        | false => rw [if_neg (by simp)]; simp
      | some b =>
        dsimp only
        rw [if_neg (by simp)]
        simp
    | ran => simp
    | finished r => rfl

lemma runSched_threads_length (env : SelEnv) (sched : List Nat) (g : OnceState) :
    (runSched env g sched).threads.length = g.threads.length := by
  induction sched generalizing g with
  | nil => rfl
  | cons i rest ih => rw [runSched, ih, stepThread_threads_length]

/-- C6: under any interleaving of `n` concurrent first-time `Storage`
callers, once every caller has returned, the selection body has executed
exactly once, every caller returned the same selected backend, and any
further schedule (subsequent calls) never re-runs the body. -/
theorem storage_selection_runs_once (env : SelEnv) (n : Nat) (sched : List Nat)
    (hn : 0 < n)
    (hall : ∀ pc ∈ (runSched env (initOnce n) sched).threads,
      ∃ r, pc = ThreadPC.finished r) :
    (runSched env (initOnce n) sched).bodyRuns = 1 ∧
    (∀ pc ∈ (runSched env (initOnce n) sched).threads,
      pc = ThreadPC.finished (some (selectStorage env))) ∧
    (∀ extra : List Nat,
      (runSched env (runSched env (initOnce n) sched) extra).bodyRuns = 1) := by
  obtain ⟨hglob, hth⟩ := onceInv_runSched env sched (initOnce n) (onceInv_init env n)
  have hlen : (runSched env (initOnce n) sched).threads.length = n := by
    rw [runSched_threads_length]
    simp [initOnce]
  have hne : (runSched env (initOnce n) sched).threads ≠ [] := by
    intro hnil
    rw [hnil] at hlen
    simp at hlen
    omega
  obtain ⟨pc0, hpc0⟩ := List.exists_mem_of_ne_nil _ hne
  obtain ⟨r0, hr0⟩ := hall pc0 hpc0
  have hpcok := hth pc0 hpc0
  rw [hr0] at hpcok
  obtain ⟨hr0sel, hdone⟩ := hpcok
  have hsec : (runSched env (initOnce n) sched).storage = some (selectStorage env) ∧
      (runSched env (initOnce n) sched).onceDone = true ∧
      (runSched env (initOnce n) sched).bodyRuns = 1 := by
    rcases hglob with ⟨_, hd, _⟩ | hsec
    · rw [hdone] at hd; cases hd
    · exact hsec
  refine ⟨hsec.2.2, ?_, ?_⟩
  · intro pc hmem
    obtain ⟨r, hr⟩ := hall pc hmem
    have hok := hth pc hmem
    rw [hr] at hok ⊢
    rw [hok.1]
  · intro extra
    obtain ⟨hglob2, _⟩ :=
      onceInv_runSched env extra _ ⟨Or.inr hsec, hth⟩
    have hd2 := runSched_onceDone_mono env extra _ hsec.2.1
    rcases hglob2 with ⟨_, hd3, _⟩ | hsec2
    · rw [hd2] at hd3; cases hd3
    · exact hsec2.2.2

/-- Witness for C6: two callers, a schedule that completes both, and the
resulting single body run returning the memory backend to each. -/
theorem storage_selection_runs_once_witness :
    0 < 2 ∧
    (∀ pc ∈ (runSched selEnvFailA (initOnce 2) [0, 0, 0, 1, 1, 1]).threads,
      ∃ r, pc = ThreadPC.finished r) ∧
    ((runSched selEnvFailA (initOnce 2) [0, 0, 0, 1, 1, 1]).bodyRuns = 1 ∧
     (∀ pc ∈ (runSched selEnvFailA (initOnce 2) [0, 0, 0, 1, 1, 1]).threads,
       pc = ThreadPC.finished (some (selectStorage selEnvFailA))) ∧
     (∀ extra : List Nat,
       (runSched selEnvFailA (runSched selEnvFailA (initOnce 2) [0, 0, 0, 1, 1, 1])
         extra).bodyRuns = 1)) := by
  have hall : ∀ pc ∈ (runSched selEnvFailA (initOnce 2) [0, 0, 0, 1, 1, 1]).threads,
      ∃ r, pc = ThreadPC.finished r := by
    intro pc hmem
    have hth : (runSched selEnvFailA (initOnce 2) [0, 0, 0, 1, 1, 1]).threads =
        [ThreadPC.finished (some ChatStorage.memory),
         ThreadPC.finished (some ChatStorage.memory)] := rfl
    rw [hth] at hmem
    simp only [List.mem_cons, List.not_mem_nil, or_false] at hmem
    rcases hmem with rfl | rfl <;> exact ⟨some ChatStorage.memory, rfl⟩
  exact ⟨by decide, hall,
    storage_selection_runs_once selEnvFailA 2 [0, 0, 0, 1, 1, 1] (by decide) hall⟩

end Arcadia
